import Mathlib

/-!
# Verification of the Seq2Seq model (src/models/seq2seq.py)

A shallow embedding of the seq2seq model-construction code and its
session-facing methods, with theorems checking the natural-language
specification against it.

Conventions of the embedding:
* int32 token tensors of shape `[batch, time]` are `List (List Int)` (rows
  are examples); length vectors of shape `[batch]` are `List Int` or
  `List Nat`.
* real-valued tensors use `ℚ`; hidden vectors are `List ℚ`.
* learned parameters (embedding tables, dense projections, recurrent cell
  transition functions) are opaque function parameters: the claims checked
  here do not depend on their numeric content.
* the special tokens `GO` and `EOS` come from `utils.config`, which is not
  part of this repository slice; they are integer parameters throughout.
* Python attribute errors / assertion failures surface as `Except PyError`.
-/

namespace Seq2Seq

/-! ## Training-mode decoder tensors (`build_placeholders`, train branch) -/

/-- `tf.ones(shape=[batch_size, 1], dtype=tf.int32) * GO`:
a `[batch_size, 1]` matrix holding the GO token. -/
def decoder_start_token (batch_size : Nat) (GO : Int) : List (List Int) :=
  List.replicate batch_size [GO]

/-- `tf.ones(shape=[batch_size, 1], dtype=tf.int32) * EOS`:
a `[batch_size, 1]` matrix holding the EOS token. -/
def decoder_end_token (batch_size : Nat) (EOS : Int) : List (List Int) :=
  List.replicate batch_size [EOS]

/-- `tf.concat([a, b], axis=-1)` on `[batch, *]` int32 matrices:
row-wise concatenation. -/
def concatLastAxis (a b : List (List Int)) : List (List Int) :=
  List.zipWith (fun r s => r ++ s) a b

/-- `self.decoder_inputs_train = tf.concat([decoder_start_token, decoder_inputs], -1)`.
`batch_size` is `tf.shape(encoder_inputs)[0]` in the source. -/
def decoder_inputs_train (batch_size : Nat) (GO : Int)
    (decoder_inputs : List (List Int)) : List (List Int) :=
  concatLastAxis (decoder_start_token batch_size GO) decoder_inputs

/-- `self.decoder_targets_train = tf.concat([decoder_inputs, decoder_end_token], -1)`. -/
def decoder_targets_train (batch_size : Nat) (EOS : Int)
    (decoder_inputs : List (List Int)) : List (List Int) :=
  concatLastAxis decoder_inputs (decoder_end_token batch_size EOS)

/-- `self.decoder_inputs_train_length = self.decoder_inputs_length + 1`
(tensor plus scalar broadcasts element-wise). -/
def decoder_inputs_train_length (decoder_inputs_length : List Int) : List Int :=
  decoder_inputs_length.map (fun x => x + 1)

/-- `self.decoder_targets_train_length = self.decoder_inputs_length + 1`. -/
def decoder_targets_train_length (decoder_inputs_length : List Int) : List Int :=
  decoder_inputs_length.map (fun x => x + 1)

theorem zipWith_replicate_left_len {α β γ : Type} (f : α → β → γ) (a : α) :
    ∀ l : List β, List.zipWith f (List.replicate l.length a) l = l.map (f a)
  | [] => rfl
  | x :: xs => by
      simp [List.replicate_succ, zipWith_replicate_left_len f a xs]

theorem zipWith_replicate_right_len {α β γ : Type} (f : α → β → γ) (b : β) :
    ∀ l : List α, List.zipWith f l (List.replicate l.length b) = l.map (fun a => f a b)
  | [] => rfl
  | x :: xs => by
      simp [List.replicate_succ, zipWith_replicate_right_len f b xs]

/-- C1: in training mode, the teacher-forced decoder input equals the raw
decoder token matrix with a `GO` column prepended to every row, the loss
target equals the raw matrix with an `EOS` column appended to every row,
and both `decoder_inputs_train_length` and `decoder_targets_train_length`
equal `decoder_inputs_length + 1` element-wise. -/
theorem claim_C1 (batch_size : Nat) (GO EOS : Int)
    (decoder_inputs : List (List Int)) (decoder_inputs_length : List Int)
    (hb : batch_size = decoder_inputs.length) :
    decoder_inputs_train batch_size GO decoder_inputs
        = decoder_inputs.map (fun row => GO :: row) ∧
    decoder_targets_train batch_size EOS decoder_inputs
        = decoder_inputs.map (fun row => row ++ [EOS]) ∧
    decoder_inputs_train_length decoder_inputs_length
        = decoder_inputs_length.map (fun x => x + 1) ∧
    decoder_targets_train_length decoder_inputs_length
        = decoder_inputs_length.map (fun x => x + 1) := by
  subst hb
  refine ⟨?_, ?_, rfl, rfl⟩
  · have h := zipWith_replicate_left_len (fun r s => r ++ s) [GO] decoder_inputs
    simpa [decoder_inputs_train, concatLastAxis, decoder_start_token] using h
  · have h := zipWith_replicate_right_len (fun r s => r ++ s) [EOS] decoder_inputs
    simpa [decoder_targets_train, concatLastAxis, decoder_end_token] using h

theorem claim_C1_witness :
    decoder_inputs_train 2 5 [[7, 8], [7, 0]]
        = [[7, 8], [7, 0]].map (fun row => (5 : Int) :: row) ∧
    decoder_targets_train 2 6 [[7, 8], [7, 0]]
        = [[7, 8], [7, 0]].map (fun row => row ++ [(6 : Int)]) ∧
    decoder_inputs_train_length [2, 1] = [(2 : Int), 1].map (fun x => x + 1) ∧
    decoder_targets_train_length [2, 1] = [(2 : Int), 1].map (fun x => x + 1) :=
  claim_C1 2 5 6 [[7, 8], [7, 0]] [2, 1] (by decide)

/-! ## Model construction (`__init__`, `build_placeholders`, `build_optimizer`)

The construction-level claims (C8, C9, C10) are about which attributes each
mode creates and which errors construction raises, so the graph-level model
records attribute presence.  `decoder_inputs` exists in inference mode too,
but as a constant rather than a placeholder; `hasDecoderInputsPlaceholder`
records whether the feedable placeholder was created. -/

/-- Python's `str.lower()`: lowercase every character (the mode and
optimizer strings in the source are ASCII, where `Char.toLower` agrees
with Python's lowercasing). -/
def pyLower (s : String) : String :=
  String.mk (s.data.map Char.toLower)

inductive PyError where
  | assertionError : PyError
  | attributeError : PyError
deriving DecidableEq, Repr

structure Seq2SeqModel where
  mode : String
  hasDecoderInputsPlaceholder : Bool
  hasDecoderInputsLength : Bool
  hasLoss : Bool
  hasTrainOp : Bool
  hasDecoderPredicts : Bool
  hasDecoderScores : Bool
deriving DecidableEq, Repr

/-- `Seq2SeqModel.__init__`: asserts `mode.lower() in ['train', 'inference']`
before any graph state is built, stores the lowercased mode, then runs the
build phases.  In training mode `build_placeholders` creates the decoder
placeholders, `build_decoder` creates the loss, and `build_optimizer` sets
`self.optimizer` only when `optimizer_type.lower() == 'adam'`; for any other
value `self.optimizer.apply_gradients` reads an attribute that was never
assigned, so construction fails with an attribute error.  In inference mode
the decoder placeholders, loss and train op are never created, and the
prediction/score tensors are. -/
def Seq2SeqModel.construct (mode optimizer_type : String) :
    Except PyError Seq2SeqModel :=
  if pyLower mode = "train" ∨ pyLower mode = "inference" then
    if pyLower mode = "train" then
      if pyLower optimizer_type = "adam" then
        Except.ok
          { mode := pyLower mode
            hasDecoderInputsPlaceholder := true
            hasDecoderInputsLength := true
            hasLoss := true
            hasTrainOp := true
            hasDecoderPredicts := false
            hasDecoderScores := false }
      else
        Except.error PyError.attributeError
    else
      Except.ok
        { mode := pyLower mode
          hasDecoderInputsPlaceholder := false
          hasDecoderInputsLength := false
          hasLoss := false
          hasTrainOp := false
          hasDecoderPredicts := true
          hasDecoderScores := true }
  else
    Except.error PyError.assertionError

/-- `train(...)`: its `input_feed` reads `self.decoder_inputs_length` and its
`output_feed` reads `self.loss` and `self.train_op`; a missing attribute is
an attribute error. -/
def Seq2SeqModel.train_call (m : Seq2SeqModel) : Except PyError Unit :=
  if m.hasDecoderInputsLength ∧ m.hasLoss ∧ m.hasTrainOp then Except.ok ()
  else Except.error PyError.attributeError

/-- `eval(...)`: reads `self.decoder_inputs_length` and fetches `self.loss`. -/
def Seq2SeqModel.eval_call (m : Seq2SeqModel) : Except PyError Unit :=
  if m.hasDecoderInputsLength ∧ m.hasLoss then Except.ok ()
  else Except.error PyError.attributeError

/-- `inference(...)`: fetches `self.decoder_predicts` and `self.decoder_scores`. -/
def Seq2SeqModel.inference_call (m : Seq2SeqModel) : Except PyError Unit :=
  if m.hasDecoderPredicts ∧ m.hasDecoderScores then Except.ok ()
  else Except.error PyError.attributeError

/-- C10: construction accepts the mode string case-insensitively — whenever
`mode.lower()` is `train` or `inference` the assert passes (construction
never raises the assertion failure, whatever the optimizer type is) and the
model, when built, carries the lowercased mode; for every other string,
construction raises the assertion failure, which happens before any graph
state is built. -/
theorem claim_C10 (mode optimizer_type : String) :
    ((pyLower mode = "train" ∨ pyLower mode = "inference") →
      Seq2SeqModel.construct mode optimizer_type ≠
        Except.error PyError.assertionError) ∧
    ((pyLower mode = "train" ∨ pyLower mode = "inference") →
      pyLower optimizer_type = "adam" →
      ∃ m, Seq2SeqModel.construct mode optimizer_type = Except.ok m ∧
        m.mode = pyLower mode) ∧
    (pyLower mode ≠ "train" → pyLower mode ≠ "inference" →
      Seq2SeqModel.construct mode optimizer_type =
        Except.error PyError.assertionError) := by
  refine ⟨?_, ?_, ?_⟩
  · intro hvalid
    unfold Seq2SeqModel.construct
    rw [if_pos hvalid]
    by_cases ht : pyLower mode = "train"
    · rw [if_pos ht]
      by_cases ho : pyLower optimizer_type = "adam"
      · rw [if_pos ho]; intro h; cases h
      · rw [if_neg ho]; intro h; cases h
    · rw [if_neg ht]; intro h; cases h
  · intro hvalid hadam
    unfold Seq2SeqModel.construct
    rw [if_pos hvalid]
    by_cases ht : pyLower mode = "train"
    · rw [if_pos ht, if_pos hadam]
      exact ⟨_, rfl, rfl⟩
    · rw [if_neg ht]
      exact ⟨_, rfl, rfl⟩
  · intro h1 h2
    unfold Seq2SeqModel.construct
    rw [if_neg (by simp [h1, h2])]

theorem claim_C10_witness :
    (Seq2SeqModel.construct "TrAiN" "adam" ≠
        Except.error PyError.assertionError) ∧
    (∃ m, Seq2SeqModel.construct "INFERENCE" "adam" = Except.ok m ∧
        m.mode = pyLower "INFERENCE") ∧
    (Seq2SeqModel.construct "test" "adam" =
        Except.error PyError.assertionError) :=
  ⟨(claim_C10 "TrAiN" "adam").1 (Or.inl (by decide)),
   (claim_C10 "INFERENCE" "adam").2.1 (Or.inr (by decide)) (by decide),
   (claim_C10 "test" "adam").2.2 (by decide) (by decide)⟩

/-- C8 counterexample: `optimizer_type = "Adam"` is a value other than
`'adam'`, yet constructing a train-mode model with it succeeds (the source
lowercases the optimizer type before comparing), so no error is raised at
construction. -/
theorem claim_C8_counterexample :
    ("Adam" : String) ≠ "adam" ∧
    ∃ m, Seq2SeqModel.construct "train" "Adam" = Except.ok m :=
  ⟨by decide,
   ⟨Seq2SeqModel.mk "train" true true true true false false, by rfl⟩⟩

/-- C8 (amended): constructing a train-mode model with an `optimizer_type`
whose lowercased form is not `'adam'` fails at construction time — the
optimizer attribute is never assigned, so applying gradients inside
`build_optimizer` raises an attribute error; the failure is neither a
silent default nor deferred past construction.  Values whose lowercase
form is `'adam'` (such as `'Adam'`) are accepted. -/
theorem claim_C8 (optimizer_type : String)
    (h : pyLower optimizer_type ≠ "adam") :
    Seq2SeqModel.construct "train" optimizer_type =
      Except.error PyError.attributeError := by
  unfold Seq2SeqModel.construct
  rw [if_pos (Or.inl (by decide)), if_pos (by decide), if_neg h]

theorem claim_C8_witness :
    Seq2SeqModel.construct "train" "sgd" =
      Except.error PyError.attributeError :=
  claim_C8 "sgd" (by decide)

/-- C9: the two modes build disjoint operation sets.  A model constructed in
train mode never creates the prediction and score tensors, so `inference`
fails with an attribute error; a model constructed in inference mode never
creates the loss, the train op, or the decoder length placeholder, so
`train` and `eval` fail with attribute errors. -/
theorem claim_C9 (mode optimizer_type : String) (m : Seq2SeqModel)
    (h : Seq2SeqModel.construct mode optimizer_type = Except.ok m) :
    (m.mode = "train" →
      m.hasDecoderPredicts = false ∧ m.hasDecoderScores = false ∧
      m.inference_call = Except.error PyError.attributeError) ∧
    (m.mode = "inference" →
      m.hasLoss = false ∧ m.hasTrainOp = false ∧
      m.hasDecoderInputsLength = false ∧
      m.hasDecoderInputsPlaceholder = false ∧
      m.train_call = Except.error PyError.attributeError ∧
      m.eval_call = Except.error PyError.attributeError) := by
  unfold Seq2SeqModel.construct at h
  by_cases hvalid : pyLower mode = "train" ∨ pyLower mode = "inference"
  · rw [if_pos hvalid] at h
    by_cases ht : pyLower mode = "train"
    · rw [if_pos ht] at h
      by_cases ho : pyLower optimizer_type = "adam"
      · rw [if_pos ho] at h
        cases h
        refine ⟨fun _ => ⟨rfl, rfl, ?_⟩, fun hm => ?_⟩
        · simp [Seq2SeqModel.inference_call]
        · exact absurd (ht ▸ hm) (by decide)
      · rw [if_neg ho] at h; cases h
    · rw [if_neg ht] at h
      cases h
      refine ⟨fun hm => absurd hm ht, fun _ => ?_⟩
      refine ⟨rfl, rfl, rfl, rfl, ?_, ?_⟩
      · simp [Seq2SeqModel.train_call]
      · simp [Seq2SeqModel.eval_call]
  · rw [if_neg hvalid] at h; cases h

theorem claim_C9_witness :
    (("train" : String) = "train" →
      (Seq2SeqModel.mk "train" true true true true false false).hasDecoderPredicts = false ∧
      (Seq2SeqModel.mk "train" true true true true false false).hasDecoderScores = false ∧
      (Seq2SeqModel.mk "train" true true true true false false).inference_call
          = Except.error PyError.attributeError) ∧
    (("train" : String) = "inference" →
      (Seq2SeqModel.mk "train" true true true true false false).hasLoss = false ∧
      (Seq2SeqModel.mk "train" true true true true false false).hasTrainOp = false ∧
      (Seq2SeqModel.mk "train" true true true true false false).hasDecoderInputsLength = false ∧
      (Seq2SeqModel.mk "train" true true true true false false).hasDecoderInputsPlaceholder = false ∧
      (Seq2SeqModel.mk "train" true true true true false false).train_call
          = Except.error PyError.attributeError ∧
      (Seq2SeqModel.mk "train" true true true true false false).eval_call
          = Except.error PyError.attributeError) :=
  claim_C9 "train" "adam" (Seq2SeqModel.mk "train" true true true true false false)
    (by rfl)

/-! ## Loss masking (`build_decoder`, train branch)

`self.decoder_masks = tf.sequence_mask(lengths=decoder_inputs_train_length,
maxlen=reduce_max(decoder_targets_train_length))` and
`self.loss = tf.contrib.seq2seq.sequence_loss(logits, targets, weights)`.
`sequence_loss` computes a weighted cross-entropy sum divided by the weight
total, so one example's contribution to the loss is the weighted sum of its
per-position cross-entropies.  The cross-entropy of one logit row against
one target id involves softmax/log and is kept as an opaque function
parameter `xent`. -/

/-- One row of `tf.sequence_mask(lengths, maxlen)`: entry `j` is `1` iff
`j < L`, `0` otherwise. -/
def maskRow (L M : Nat) : List ℚ :=
  (List.range M).map (fun j => if j < L then (1 : ℚ) else 0)

/-- `tf.sequence_mask(lengths, maxlen)`. -/
def sequence_mask (lengths : List Nat) (maxlen : Nat) : List (List ℚ) :=
  lengths.map (fun L => maskRow L maxlen)

/-- `tf.reduce_max` over an int32 length vector. -/
def reduceMaxNat (l : List Nat) : Nat := l.foldr max 0

/-- The `decoder_masks` tensor: a sequence mask whose lengths are
`decoder_inputs_train_length = decoder_inputs_length + 1` and whose maxlen
is `reduce_max(decoder_targets_train_length)`. -/
def decoder_masks (decoder_inputs_length : List Nat) : List (List ℚ) :=
  sequence_mask (decoder_inputs_length.map (fun L => L + 1))
    (reduceMaxNat (decoder_inputs_length.map (fun L => L + 1)))

/-- The weighted per-position cross-entropy sum that one example contributes
to the numerator of `sequence_loss`: `Σⱼ wⱼ · xent(logitsⱼ, targetⱼ)`. -/
def wXentSum (xent : List ℚ → Int → ℚ) :
    List ℚ → List (List ℚ) → List Int → ℚ
  | w :: ws, l :: ls, t :: ts => w * xent l t + wXentSum xent ws ls ts
  | _, _, _ => 0

theorem wXentSum_zero (xent : List ℚ → Int → ℚ) :
    ∀ (ws : List ℚ) (ls : List (List ℚ)) (ts : List Int),
      (∀ w ∈ ws, w = 0) → wXentSum xent ws ls ts = 0
  | [], _, _, _ => rfl
  | _ :: _, [], _, _ => rfl
  | _ :: _, _ :: _, [], _ => rfl
  | w :: ws, l :: ls, t :: ts, h => by
      have hw : w = 0 := h w (List.mem_cons_self w ws)
      have hrest := wXentSum_zero xent ws ls ts
        (fun x hx => h x (List.mem_cons_of_mem w hx))
      simp [wXentSum, hw, hrest]

theorem wXentSum_append (xent : List ℚ → Int → ℚ) :
    ∀ (ws₁ ws₂ : List ℚ) (ls : List (List ℚ)) (ts : List Int),
      ws₁.length ≤ ls.length → ws₁.length ≤ ts.length →
      wXentSum xent (ws₁ ++ ws₂) ls ts
        = wXentSum xent ws₁ ls ts
          + wXentSum xent ws₂ (ls.drop ws₁.length) (ts.drop ws₁.length)
  | [], ws₂, ls, ts, _, _ => by simp [wXentSum]
  | w :: ws, ws₂, [], ts, hl, _ => by simp at hl
  | w :: ws, ws₂, l :: ls, [], _, ht => by simp at ht
  | w :: ws, ws₂, l :: ls, t :: ts, hl, ht => by
      have hl' : ws.length ≤ ls.length := by simp at hl; omega
      have ht' : ws.length ≤ ts.length := by simp at ht; omega
      have h := wXentSum_append xent ws ws₂ ls ts hl' ht'
      simp [wXentSum, h, add_assoc]

theorem wXentSum_take (xent : List ℚ → Int → ℚ) :
    ∀ (ws : List ℚ) (ls : List (List ℚ)) (ts : List Int),
      wXentSum xent ws ls ts
        = wXentSum xent ws (ls.take ws.length) (ts.take ws.length)
  | [], _, _ => rfl
  | _ :: _, [], _ => by simp [wXentSum]
  | _ :: _, _ :: _, [] => by simp [wXentSum]
  | w :: ws, l :: ls, t :: ts => by
      simp [wXentSum, wXentSum_take xent ws ls ts]

theorem maskRow_length (L M : Nat) : (maskRow L M).length = M := by
  simp [maskRow]

theorem maskRow_take (L M : Nat) (h : L ≤ M) :
    (maskRow L M).take L = List.replicate L (1 : ℚ) := by
  apply List.ext_getElem
  · simp [maskRow, h]
  · intro i h1 h2
    have hiL : i < L := by simpa using h2
    simp [maskRow, List.getElem_take, hiL]

theorem maskRow_drop_zero (L M : Nat) :
    ∀ w ∈ (maskRow L M).drop L, w = 0 := by
  intro w hw
  obtain ⟨i, hi, hget⟩ := List.mem_iff_getElem.mp hw
  rw [List.getElem_drop] at hget
  have hL : ¬ (L + i < L) := by omega
  simpa [maskRow, hL] using hget.symm

/-- The weighted cross-entropy sum against a mask row depends only on the
positions below the true length `L`. -/
theorem wXentSum_maskRow (xent : List ℚ → Int → ℚ) (L M : Nat) (hLM : L ≤ M)
    (ls : List (List ℚ)) (ts : List Int)
    (hl : L ≤ ls.length) (ht : L ≤ ts.length) :
    wXentSum xent (maskRow L M) ls ts
      = wXentSum xent (List.replicate L (1 : ℚ)) (ls.take L) (ts.take L) := by
  have htakelen : ((maskRow L M).take L).length = L := by
    simp [maskRow_length, hLM]
  calc wXentSum xent (maskRow L M) ls ts
      = wXentSum xent ((maskRow L M).take L ++ (maskRow L M).drop L) ls ts := by
        rw [List.take_append_drop]
    _ = wXentSum xent ((maskRow L M).take L) ls ts
        + wXentSum xent ((maskRow L M).drop L)
            (ls.drop ((maskRow L M).take L).length)
            (ts.drop ((maskRow L M).take L).length) :=
        wXentSum_append xent _ _ ls ts (by rw [htakelen]; exact hl)
          (by rw [htakelen]; exact ht)
    _ = wXentSum xent ((maskRow L M).take L) ls ts := by
        rw [wXentSum_zero xent _ _ _ (maskRow_drop_zero L M), add_zero]
    _ = wXentSum xent (List.replicate L (1 : ℚ)) ls ts := by
        rw [maskRow_take L M hLM]
    _ = wXentSum xent (List.replicate L (1 : ℚ)) (ls.take L) (ts.take L) := by
        simpa using wXentSum_take xent (List.replicate L (1 : ℚ)) ls ts

theorem maskRow_getD_zero (L M j : Nat) (h : L ≤ j) :
    (maskRow L M).getD j 0 = 0 := by
  by_cases hM : j < M
  · rw [List.getD_eq_getElem _ _ (by simpa [maskRow_length] using hM)]
    have hL : ¬ (j < L) := by omega
    simp [maskRow, hL]
  · rw [List.getD_eq_default _ _ (by simp [maskRow_length]; omega)]

/-- C2: the training loss weights are the sequence mask built from the true
lengths `decoder_inputs_length + 1`; for example `i` with true length
`L = decoder_inputs_length[i] + 1`, every padded position `j ≥ L` gets
weight `0`, and the example's weighted cross-entropy contribution to the
loss is the same under any two paddings of its logit and target rows (to
widths `M1` and `M2`) that agree below `L`. -/
theorem claim_C2 (xent : List ℚ → Int → ℚ) (decoder_inputs_length : List Nat)
    (i j M1 M2 : Nat) (hi : i < decoder_inputs_length.length)
    (hj : decoder_inputs_length.getD i 0 + 1 ≤ j)
    (h1 : decoder_inputs_length.getD i 0 + 1 ≤ M1)
    (h2 : decoder_inputs_length.getD i 0 + 1 ≤ M2)
    (ls1 ls2 : List (List ℚ)) (ts1 ts2 : List Int)
    (hl1 : decoder_inputs_length.getD i 0 + 1 ≤ ls1.length)
    (ht1 : decoder_inputs_length.getD i 0 + 1 ≤ ts1.length)
    (hl2 : decoder_inputs_length.getD i 0 + 1 ≤ ls2.length)
    (ht2 : decoder_inputs_length.getD i 0 + 1 ≤ ts2.length)
    (hls : ls1.take (decoder_inputs_length.getD i 0 + 1)
         = ls2.take (decoder_inputs_length.getD i 0 + 1))
    (hts : ts1.take (decoder_inputs_length.getD i 0 + 1)
         = ts2.take (decoder_inputs_length.getD i 0 + 1)) :
    (decoder_masks decoder_inputs_length).getD i []
      = maskRow (decoder_inputs_length.getD i 0 + 1)
          (reduceMaxNat (decoder_inputs_length.map (fun L => L + 1))) ∧
    ((decoder_masks decoder_inputs_length).getD i []).getD j 0 = 0 ∧
    wXentSum xent (maskRow (decoder_inputs_length.getD i 0 + 1) M1) ls1 ts1
      = wXentSum xent (maskRow (decoder_inputs_length.getD i 0 + 1) M2) ls2 ts2 := by
  set L := decoder_inputs_length.getD i 0 + 1 with hL
  have hi' : i < (decoder_masks decoder_inputs_length).length := by
    simpa [decoder_masks, sequence_mask] using hi
  have hrow : (decoder_masks decoder_inputs_length).getD i []
      = maskRow L (reduceMaxNat (decoder_inputs_length.map (fun L => L + 1))) := by
    rw [List.getD_eq_getElem _ _ hi', hL, List.getD_eq_getElem _ _ hi]
    simp [decoder_masks, sequence_mask]
  refine ⟨hrow, ?_, ?_⟩
  · rw [hrow]
    exact maskRow_getD_zero _ _ _ hj
  · rw [wXentSum_maskRow xent L M1 h1 ls1 ts1 hl1 ht1,
        wXentSum_maskRow xent L M2 h2 ls2 ts2 hl2 ht2, hls, hts]

theorem claim_C2_witness :
    (decoder_masks [1, 0]).getD 0 []
      = maskRow (List.getD [1, 0] 0 0 + 1)
          (reduceMaxNat (List.map (fun L => L + 1) [1, 0])) ∧
    ((decoder_masks [1, 0]).getD 0 []).getD 2 0 = 0 ∧
    wXentSum (fun l t => l.sum + (t : ℚ)) (maskRow (List.getD [1, 0] 0 0 + 1) 2)
        [[4], [5]] [1, 2]
      = wXentSum (fun l t => l.sum + (t : ℚ)) (maskRow (List.getD [1, 0] 0 0 + 1) 3)
        [[4], [5], [9]] [1, 2, 7] :=
  claim_C2 (fun l t => l.sum + (t : ℚ)) [1, 0] 0 2 2 3 (by decide) (by decide)
    (by decide) (by decide) [[4], [5]] [[4], [5], [9]] [1, 2] [1, 2, 7]
    (by decide) (by decide) (by decide) (by decide) (by decide) (by decide)

/-! ## Gradient clipping (`build_optimizer`)

`self.clip_gradients, _ = tf.clip_by_global_norm(self.gradients,
self.max_gradient_norm)` and `self.train_op =
self.optimizer.apply_gradients(zip(self.clip_gradients, ...))`: the
gradients actually applied are the clipped ones.  The global norm is the
square root of the sum of squares of every gradient entry; square roots
leave `ℚ`, so the norm is a parameter `gnorm` pinned by the hypotheses
`0 ≤ gnorm` and `gnorm * gnorm = sumSq gradients`. -/

/-- Sum of squares of all entries of a list of gradient tensors
(each tensor flattened to its entries). -/
def sumSq (ts : List (List ℚ)) : ℚ :=
  (ts.map (fun t => (t.map (fun x => x * x)).sum)).sum

/-- `tf.clip_by_global_norm(t_list, clip_norm)` with the global norm
`gnorm`: every entry is scaled by `clip_norm / max(gnorm, clip_norm)`. -/
def clip_by_global_norm (ts : List (List ℚ)) (clip_norm gnorm : ℚ) :
    List (List ℚ) :=
  ts.map (fun t => t.map (fun x => x * (clip_norm / max gnorm clip_norm)))

/-- The gradients the train op applies are exactly the clipped gradients. -/
def applied_gradients (gradients : List (List ℚ))
    (max_gradient_norm gnorm : ℚ) : List (List ℚ) :=
  clip_by_global_norm gradients max_gradient_norm gnorm

theorem sumSqRow_scale (c : ℚ) :
    ∀ r : List ℚ,
      ((r.map (fun x => x * c)).map (fun x => x * x)).sum
        = c * c * (r.map (fun x => x * x)).sum
  | [] => by simp
  | x :: xs => by
      have h := sumSqRow_scale c xs
      simp only [List.map_cons, List.sum_cons]
      rw [h]; ring

theorem sumSq_scale (c : ℚ) :
    ∀ ts : List (List ℚ),
      sumSq (ts.map (fun t => t.map (fun x => x * c))) = c * c * sumSq ts
  | [] => by simp [sumSq]
  | t :: ts => by
      have h := sumSq_scale c ts
      simp only [sumSq, List.map_cons, List.sum_cons] at h ⊢
      rw [sumSqRow_scale c t, h]; ring

/-- C6: if the global norm of the computed gradients exceeds
`max_gradient_norm`, the applied gradients are the original gradients
uniformly rescaled by `max_gradient_norm / gnorm` and their global norm
equals `max_gradient_norm` (stated on squares, which is equivalent for
nonnegative norms); otherwise the applied gradients equal the computed
gradients unchanged. -/
theorem claim_C6 (gradients : List (List ℚ)) (max_gradient_norm gnorm : ℚ)
    (hclip : 0 < max_gradient_norm) (hg : 0 ≤ gnorm)
    (hsq : gnorm * gnorm = sumSq gradients) :
    (max_gradient_norm < gnorm →
      applied_gradients gradients max_gradient_norm gnorm
        = gradients.map (fun t => t.map (fun x => x * (max_gradient_norm / gnorm))) ∧
      sumSq (applied_gradients gradients max_gradient_norm gnorm)
        = max_gradient_norm * max_gradient_norm) ∧
    (gnorm ≤ max_gradient_norm →
      applied_gradients gradients max_gradient_norm gnorm = gradients) := by
  constructor
  · intro hlt
    have hmax : max gnorm max_gradient_norm = gnorm := max_eq_left hlt.le
    have hgnz : gnorm ≠ 0 := ne_of_gt (lt_trans hclip hlt)
    constructor
    · simp [applied_gradients, clip_by_global_norm, hmax]
    · simp only [applied_gradients, clip_by_global_norm, hmax]
      rw [sumSq_scale, ← hsq]
      field_simp
  · intro hle
    have hmax : max gnorm max_gradient_norm = max_gradient_norm := max_eq_right hle
    have hnz : max_gradient_norm ≠ 0 := ne_of_gt hclip
    simp [applied_gradients, clip_by_global_norm, hmax, div_self hnz]

theorem claim_C6_witness :
    ((1 : ℚ) < 5 →
      applied_gradients [[3], [4]] 1 5
        = [[3], [4]].map (fun t => t.map (fun x => x * ((1 : ℚ) / 5))) ∧
      sumSq (applied_gradients [[3], [4]] 1 5) = 1 * 1) ∧
    ((5 : ℚ) ≤ 1 →
      applied_gradients [[3], [4]] 1 5 = [[3], [4]]) :=
  claim_C6 [[3], [4]] 1 5 (by norm_num) (by norm_num) (by simp [sumSq]; norm_num)

/-! ## Inference decoder (`build_decoder`, inference branch; `inference`)

The inference branch runs an explicit Python loop of exactly
`decoder_max_time_steps` iterations: one decoder-cell invocation, the
shared `decoder_logits` dense projection, a softmax, argmax/max for the
prediction and its score, and an embedding lookup of the prediction as the
next input.  The decoder cell, projection and embedding are learned maps
kept as function parameters; `exp` leaves `ℚ`, so the softmax exponential
is a positive function parameter `e`. -/

/-- `tf.reduce_max(probabilities, -1)` on one probability row. -/
def maxVal : List ℚ → ℚ
  | [] => 0
  | [x] => x
  | x :: y :: ys => max x (maxVal (y :: ys))

/-- `tf.argmax(probabilities, -1)` on one row: the first index attaining
the maximum value. -/
def argmaxIdx : List ℚ → Nat
  | [] => 0
  | [_] => 0
  | x :: y :: ys => if maxVal (y :: ys) ≤ x then 0 else argmaxIdx (y :: ys) + 1

/-- `tf.nn.softmax(logits, -1)` on one row: exponentials normalized by
their sum, with the exponential abstracted as `e`. -/
def softmax (e : ℚ → ℚ) (logits : List ℚ) : List ℚ :=
  logits.map (fun x => e x / (logits.map e).sum)

/-- One iteration of the inference loop, for one example: apply the decoder
cell once to `(input, state)`, project the output through the shared dense
layer, softmax, take the argmax index as the prediction and the maximum
probability as its score, and embed the prediction as the next input.
Returns `(predict, score, next_input, next_state)`. -/
def decodeStep {σ : Type} (cell : List ℚ → σ → List ℚ × σ)
    (dense : List ℚ → List ℚ) (embed : Nat → List ℚ) (e : ℚ → ℚ)
    (input : List ℚ) (state : σ) : Nat × ℚ × List ℚ × σ :=
  let os := cell input state
  let logits := dense os.1
  let probabilities := softmax e logits
  let predicts := argmaxIdx probabilities
  let scores := maxVal probabilities
  (predicts, scores, embed predicts, os.2)

/-- The `for _ in range(decoder_max_time_steps)` loop, accumulating the
per-step predictions and scores (the stacked `decoder_predicts` and
`decoder_scores` rows of one example). -/
def decodeLoop {σ : Type} (cell : List ℚ → σ → List ℚ × σ)
    (dense : List ℚ → List ℚ) (embed : Nat → List ℚ) (e : ℚ → ℚ) :
    Nat → List ℚ → σ → List Nat × List ℚ
  | 0, _, _ => ([], [])
  | n + 1, input, state =>
    let st := decodeStep cell dense embed e input state
    let rest := decodeLoop cell dense embed e n st.2.2.1 st.2.2.2
    (st.1 :: rest.1, st.2.1 :: rest.2)

/-- `inference(...)`, one example: the loop starts from the embedded GO
token and the encoder final state and returns the fetched
`(decoder_predicts, decoder_scores)`. -/
def inferenceOutputs {σ : Type} (cell : List ℚ → σ → List ℚ × σ)
    (dense : List ℚ → List ℚ) (embed : Nat → List ℚ) (e : ℚ → ℚ)
    (GO decoder_max_time_steps : Nat) (encoder_last_state : σ) :
    List Nat × List ℚ :=
  decodeLoop cell dense embed e decoder_max_time_steps (embed GO)
    encoder_last_state

theorem maxVal_cons (x y : ℚ) (ys : List ℚ) :
    maxVal (x :: y :: ys) = max x (maxVal (y :: ys)) := rfl

theorem argmaxIdx_lt : ∀ l : List ℚ, l ≠ [] → argmaxIdx l < l.length
  | [], h => absurd rfl h
  | [_], _ => by simp [argmaxIdx]
  | x :: y :: ys, _ => by
      by_cases h : maxVal (y :: ys) ≤ x
      · simp [argmaxIdx, h]
      · have ih := argmaxIdx_lt (y :: ys) (by simp)
        simp only [argmaxIdx, if_neg h, List.length_cons]
        simpa using Nat.succ_lt_succ ih

theorem getD_argmaxIdx : ∀ l : List ℚ, l ≠ [] → l.getD (argmaxIdx l) 0 = maxVal l
  | [], h => absurd rfl h
  | [_], _ => rfl
  | x :: y :: ys, _ => by
      by_cases h : maxVal (y :: ys) ≤ x
      · simp [argmaxIdx, h, maxVal_cons, max_eq_left h]
      · have ih := getD_argmaxIdx (y :: ys) (by simp)
        have hx : x ≤ maxVal (y :: ys) := le_of_not_le h
        simp only [argmaxIdx, if_neg h, maxVal_cons, max_eq_right hx,
          List.getD_cons_succ]
        exact ih

theorem maxVal_mem : ∀ l : List ℚ, l ≠ [] → maxVal l ∈ l
  | [], h => absurd rfl h
  | [x], _ => by simp [maxVal]
  | x :: y :: ys, _ => by
      rcases max_choice x (maxVal (y :: ys)) with h | h
      · rw [maxVal_cons, h]; exact List.mem_cons_self _ _
      · rw [maxVal_cons, h]
        exact List.mem_cons_of_mem _ (maxVal_mem (y :: ys) (by simp))

theorem sum_map_pos (e : ℚ → ℚ) (he : ∀ x, 0 < e x) (x : ℚ) (xs : List ℚ) :
    0 < ((x :: xs).map e).sum := by
  simp only [List.map_cons, List.sum_cons]
  have h0 : 0 ≤ (xs.map e).sum :=
    List.sum_nonneg (fun a ha => by
      obtain ⟨b, _, rfl⟩ := List.mem_map.mp ha
      exact (he b).le)
  have h1 := he x
  linarith

theorem softmax_length (e : ℚ → ℚ) (logits : List ℚ) :
    (softmax e logits).length = logits.length := by
  simp [softmax]

theorem softmax_mem_bounds (e : ℚ → ℚ) (he : ∀ x, 0 < e x) (logits : List ℚ)
    (q : ℚ) (hq : q ∈ softmax e logits) : 0 ≤ q ∧ q ≤ 1 := by
  obtain ⟨x, hx, rfl⟩ := List.mem_map.mp hq
  obtain ⟨y, ys, rfl⟩ := List.exists_cons_of_ne_nil (List.ne_nil_of_mem hx)
  have hS := sum_map_pos e he y ys
  constructor
  · exact div_nonneg (he x).le hS.le
  · rw [div_le_one hS]
    exact List.single_le_sum
      (fun a ha => by
        obtain ⟨b, _, rfl⟩ := List.mem_map.mp ha
        exact (he b).le)
      _ (List.mem_map_of_mem e hx)

theorem decodeLoop_length {σ : Type} (cell : List ℚ → σ → List ℚ × σ)
    (dense : List ℚ → List ℚ) (embed : Nat → List ℚ) (e : ℚ → ℚ) :
    ∀ (n : Nat) (input : List ℚ) (state : σ),
      (decodeLoop cell dense embed e n input state).1.length = n ∧
      (decodeLoop cell dense embed e n input state).2.length = n
  | 0, _, _ => ⟨rfl, rfl⟩
  | n + 1, input, state => by
      have ih := decodeLoop_length cell dense embed e n
      simp [decodeLoop, ih]

theorem decodeLoop_mem {σ : Type} (cell : List ℚ → σ → List ℚ × σ)
    (dense : List ℚ → List ℚ) (embed : Nat → List ℚ) (e : ℚ → ℚ)
    (V : Nat) (hdense : ∀ o, (dense o).length = V) (hV : 0 < V)
    (he : ∀ x, 0 < e x) :
    ∀ (n : Nat) (input : List ℚ) (state : σ),
      (∀ p ∈ (decodeLoop cell dense embed e n input state).1, p < V) ∧
      (∀ s ∈ (decodeLoop cell dense embed e n input state).2, 0 ≤ s ∧ s ≤ 1)
  | 0, _, _ => by simp [decodeLoop]
  | n + 1, input, state => by
      have ih := decodeLoop_mem cell dense embed e V hdense hV he n
      have hlen : (softmax e (dense (cell input state).1)).length = V := by
        rw [softmax_length, hdense]
      have hne : softmax e (dense (cell input state).1) ≠ [] := by
        intro hnil
        rw [hnil] at hlen
        simp at hlen
        omega
      constructor
      · intro p hp
        simp only [decodeLoop, decodeStep] at hp
        rcases List.mem_cons.mp hp with hp | hp
        · subst hp
          have := argmaxIdx_lt _ hne
          omega
        · exact (ih _ _).1 p hp
      · intro s hs
        simp only [decodeLoop, decodeStep] at hs
        rcases List.mem_cons.mp hs with hs | hs
        · subst hs
          exact softmax_mem_bounds e he _ _ (maxVal_mem _ hne)
        · exact (ih _ _).2 s hs

/-- C3: for every inference-mode model and encoder batch, inference returns
per example exactly `decoder_max_time_steps` predicted token indices, each
a valid index into the decoder vocabulary, together with one confidence
score per step, each in `[0, 1]`.  Hypotheses: the shared projection
produces `decoder_vocab_size` logits, the vocabulary is nonempty, and the
softmax exponential is positive (true of `exp`). -/
theorem claim_C3 {σ : Type} (cell : List ℚ → σ → List ℚ × σ)
    (dense : List ℚ → List ℚ) (embed : Nat → List ℚ) (e : ℚ → ℚ)
    (GO decoder_max_time_steps decoder_vocab_size : Nat)
    (encoder_last_state : σ)
    (hdense : ∀ o, (dense o).length = decoder_vocab_size)
    (hV : 0 < decoder_vocab_size) (he : ∀ x, 0 < e x) :
    (inferenceOutputs cell dense embed e GO decoder_max_time_steps
        encoder_last_state).1.length = decoder_max_time_steps ∧
    (inferenceOutputs cell dense embed e GO decoder_max_time_steps
        encoder_last_state).2.length = decoder_max_time_steps ∧
    (∀ p ∈ (inferenceOutputs cell dense embed e GO decoder_max_time_steps
        encoder_last_state).1, p < decoder_vocab_size) ∧
    (∀ s ∈ (inferenceOutputs cell dense embed e GO decoder_max_time_steps
        encoder_last_state).2, 0 ≤ s ∧ s ≤ 1) := by
  have h1 := decodeLoop_length cell dense embed e decoder_max_time_steps
    (embed GO) encoder_last_state
  have h2 := decodeLoop_mem cell dense embed e decoder_vocab_size hdense hV he
    decoder_max_time_steps (embed GO) encoder_last_state
  exact ⟨h1.1, h1.2, h2.1, h2.2⟩

theorem claim_C3_witness :
    (inferenceOutputs (fun _ (_ : Unit) => ([], ())) (fun _ => [0, 0])
        (fun _ => []) (fun _ => 1) 0 2 ()).1.length = 2 ∧
    (inferenceOutputs (fun _ (_ : Unit) => ([], ())) (fun _ => [0, 0])
        (fun _ => []) (fun _ => 1) 0 2 ()).2.length = 2 ∧
    (∀ p ∈ (inferenceOutputs (fun _ (_ : Unit) => ([], ())) (fun _ => [0, 0])
        (fun _ => []) (fun _ => 1) 0 2 ()).1, p < 2) ∧
    (∀ s ∈ (inferenceOutputs (fun _ (_ : Unit) => ([], ())) (fun _ => [0, 0])
        (fun _ => []) (fun _ => 1) 0 2 ()).2, 0 ≤ s ∧ s ≤ 1) :=
  claim_C3 (fun _ (_ : Unit) => ([], ())) (fun _ => [0, 0]) (fun _ => [])
    (fun _ => 1) 0 2 2 () (fun o => rfl) (by norm_num) (fun x => by norm_num)

/-- The inference decoder as the specification words it: seed input is the
embedded GO token, the initial state is the encoder final state; each step
applies the decoder cell once, projects to logits, softmaxes, selects the
highest-probability index as the prediction with its own probability as
the confidence score, and embeds the prediction as the next input; the
loop runs a fixed number of steps. -/
def greedyDecodeSpec {σ : Type} (cell : List ℚ → σ → List ℚ × σ)
    (dense : List ℚ → List ℚ) (embed : Nat → List ℚ) (e : ℚ → ℚ) :
    Nat → List ℚ → σ → List Nat × List ℚ
  | 0, _, _ => ([], [])
  | n + 1, input, state =>
    let os := cell input state
    let probabilities := softmax e (dense os.1)
    let p := argmaxIdx probabilities
    let rest := greedyDecodeSpec cell dense embed e n (embed p) os.2
    (p :: rest.1, probabilities.getD p 0 :: rest.2)

/-- The spec-worded inference entry point. -/
def greedyInferenceSpec {σ : Type} (cell : List ℚ → σ → List ℚ × σ)
    (dense : List ℚ → List ℚ) (embed : Nat → List ℚ) (e : ℚ → ℚ)
    (GO T : Nat) (encoder_last_state : σ) : List Nat × List ℚ :=
  greedyDecodeSpec cell dense embed e T (embed GO) encoder_last_state

theorem decodeLoop_eq_greedy {σ : Type} (cell : List ℚ → σ → List ℚ × σ)
    (dense : List ℚ → List ℚ) (embed : Nat → List ℚ) (e : ℚ → ℚ)
    (V : Nat) (hdense : ∀ o, (dense o).length = V) (hV : 0 < V) :
    ∀ (n : Nat) (input : List ℚ) (state : σ),
      decodeLoop cell dense embed e n input state
        = greedyDecodeSpec cell dense embed e n input state
  | 0, _, _ => rfl
  | n + 1, input, state => by
      have ih := decodeLoop_eq_greedy cell dense embed e V hdense hV n
      have hne : softmax e (dense (cell input state).1) ≠ [] := by
        intro hnil
        have := softmax_length e (dense (cell input state).1)
        rw [hnil, hdense] at this
        simp at this
        omega
      have hscore := getD_argmaxIdx _ hne
      simp only [decodeLoop, decodeStep, greedyDecodeSpec, ih]
      rw [hscore]

/-- C4: the inference decoder is the greedy autoregressive loop the spec
describes — step-0 input is the embedded GO token, the initial state is the
encoder final state, each step applies the decoder cell once, projects
through the shared dense layer, softmaxes, takes the argmax index as the
prediction with its probability as the score, feeds the embedded
prediction forward — and it runs exactly `decoder_max_time_steps`
iterations with no early stopping on a predicted EOS (the prediction list
always has full length, whatever tokens appear in it). -/
theorem claim_C4 {σ : Type} (cell : List ℚ → σ → List ℚ × σ)
    (dense : List ℚ → List ℚ) (embed : Nat → List ℚ) (e : ℚ → ℚ)
    (GO decoder_max_time_steps decoder_vocab_size : Nat)
    (encoder_last_state : σ)
    (hdense : ∀ o, (dense o).length = decoder_vocab_size)
    (hV : 0 < decoder_vocab_size) :
    inferenceOutputs cell dense embed e GO decoder_max_time_steps
        encoder_last_state
      = greedyInferenceSpec cell dense embed e GO decoder_max_time_steps
        encoder_last_state ∧
    (inferenceOutputs cell dense embed e GO decoder_max_time_steps
        encoder_last_state).1.length = decoder_max_time_steps := by
  refine ⟨?_, (decodeLoop_length cell dense embed e _ _ _).1⟩
  exact decodeLoop_eq_greedy cell dense embed e decoder_vocab_size hdense hV
    decoder_max_time_steps (embed GO) encoder_last_state

theorem claim_C4_witness :
    inferenceOutputs (fun _ (_ : Unit) => ([], ())) (fun _ => [0, 0])
        (fun _ => []) (fun _ => 1) 0 2 ()
      = greedyInferenceSpec (fun _ (_ : Unit) => ([], ())) (fun _ => [0, 0])
        (fun _ => []) (fun _ => 1) 0 2 () ∧
    (inferenceOutputs (fun _ (_ : Unit) => ([], ())) (fun _ => [0, 0])
        (fun _ => []) (fun _ => 1) 0 2 ()).1.length = 2 :=
  claim_C4 (fun _ (_ : Unit) => ([], ())) (fun _ => [0, 0]) (fun _ => [])
    (fun _ => 1) 0 2 2 () (fun o => rfl) (by norm_num)

/-! ## Recurrent layers (`build_single_cell`, `dynamic_rnn` semantics)

A GRU cell of fixed hidden width is a learned transition
`input → state → new state` whose output equals its new state.
`build_single_cell` optionally wraps it in a `DropoutWrapper` with
`output_keep_prob = keep_prob`: the emitted output gets dropout applied,
the propagated state is the undropped new state.  `dynamic_rnn` with a
`sequence_length` applies the cell at steps below the length, emits zeros
and carries the state through at steps beyond it. -/

/-- The hidden-state / cell-transition type of one GRU cell. -/
abbrev CellF : Type := List ℚ → List ℚ → List ℚ

/-- TF dropout on one output vector: unit `i` is kept iff its uniform
`[0,1)` draw `u i` is below the keep probability, kept units are scaled by
`1 / keep_prob`, dropped units become `0`. -/
def dropoutVec (kp : ℚ) : (Nat → ℚ) → List ℚ → List ℚ
  | _, [] => []
  | u, v :: vs =>
    (if u 0 < kp then v / kp else 0) :: dropoutVec kp (fun i => u (i + 1)) vs

/-- One invocation of a (possibly dropout-wrapped) GRU cell:
returns `(emitted output, propagated state)`. -/
def applyCell (useDrop : Bool) (kp : ℚ) (u : Nat → ℚ) (cell : CellF)
    (x s : List ℚ) : List ℚ × List ℚ :=
  let s' := cell x s
  (if useDrop then dropoutVec kp u s' else s', s')

/-- `tf.nn.dynamic_rnn` over one example with `sequence_length = len`,
starting at time `t` in state `s`: steps `t < len` apply the cell, steps
`t ≥ len` emit `zero` and keep the state.  `u t` is step `t`'s dropout
draw stream.  Returns `(outputs, final state)`. -/
def runLayer (useDrop : Bool) (kp : ℚ) (cell : CellF) (u : Nat → Nat → ℚ)
    (zero : List ℚ) : Nat → Nat → List ℚ → List (List ℚ) →
      List (List ℚ) × List ℚ
  | _, _, s, [] => ([], s)
  | t, len, s, x :: xs =>
    if t < len then
      let os := applyCell useDrop kp (u t) cell x s
      let rest := runLayer useDrop kp cell u zero (t + 1) len os.2 xs
      (os.1 :: rest.1, rest.2)
    else
      let rest := runLayer useDrop kp cell u zero (t + 1) len s xs
      (zero :: rest.1, rest.2)

/-- `MultiRNNCell` under `dynamic_rnn`: layer `i` consumes the outputs of
layer `i - 1`; the outputs are the top layer's, the final state is the
list of per-layer final states.  `us l` is layer `l`'s dropout stream and
`inits` the per-layer initial states. -/
def runStack (useDrop : Bool) (kp : ℚ) (zero : List ℚ) (len : Nat) :
    (Nat → Nat → Nat → ℚ) → List CellF → List (List ℚ) → List (List ℚ) →
      List (List ℚ) × List (List ℚ)
  | _, [], _, xs => (xs, [])
  | us, c :: cs, inits, xs =>
    let r := runLayer useDrop kp c (us 0) zero 0 len (inits.headD zero) xs
    let rr := runStack useDrop kp zero len (fun l => us (l + 1)) cs
      inits.tail r.1
    (rr.1, r.2 :: rr.2)

/-- `tf.reverse_sequence` as used by `bidirectional_dynamic_rnn`: reverse
the first `len` elements, keep the padding where it is. -/
def reverseByLength {α : Type} (len : Nat) (xs : List α) : List α :=
  (xs.take len).reverse ++ xs.drop len

/-- `build_encoder`, one example: embed the tokens, project them to hidden
width (`denseIn`), then either run the bidirectional arrangement (forward
cell, backward cell over the length-reversed sequence, concat-projection
`denseBi` of the two output streams, and an upper stack of
`encoder_depth - 1` layers when `encoder_depth ≥ 2`) or a single
`encoder_depth`-layer stack.  Returns `(encoder_outputs,
encoder_last_state)`, the latter a list of per-layer states. -/
def buildEncoder (use_bidirectional use_dropout : Bool) (kp : ℚ)
    (encoder_depth : Nat) (cellFw cellBw : CellF) (mkCell : Nat → CellF)
    (embE : Int → List ℚ) (denseIn : List ℚ → List ℚ)
    (denseBi : List ℚ → List ℚ → List ℚ) (zero : List ℚ)
    (ufw ubw : Nat → Nat → ℚ) (uup : Nat → Nat → Nat → ℚ)
    (encoder_inputs : List Int) (encoder_inputs_length : Nat) :
    List (List ℚ) × List (List ℚ) :=
  let embedded := encoder_inputs.map (fun tok => denseIn (embE tok))
  if use_bidirectional then
    let fw := runLayer use_dropout kp cellFw ufw zero 0
      encoder_inputs_length zero embedded
    let bwRun := runLayer use_dropout kp cellBw ubw zero 0
      encoder_inputs_length zero
      (reverseByLength encoder_inputs_length embedded)
    let bwOuts := reverseByLength encoder_inputs_length bwRun.1
    let biOuts := List.zipWith denseBi fw.1 bwOuts
    if 2 < encoder_depth then
      let upper := runStack use_dropout kp zero encoder_inputs_length uup
        ((List.range (encoder_depth - 1)).map mkCell)
        (List.replicate (encoder_depth - 1) zero) biOuts
      (upper.1, fw.2 :: upper.2)
    else if encoder_depth = 2 then
      let upper := runLayer use_dropout kp (mkCell 0) (uup 0) zero 0
        encoder_inputs_length zero biOuts
      (upper.1, [fw.2, upper.2])
    else
      (biOuts, [fw.2])
  else
    runStack use_dropout kp zero encoder_inputs_length uup
      ((List.range encoder_depth).map mkCell)
      (List.replicate encoder_depth zero) embedded

theorem runStack_states_length (useDrop : Bool) (kp : ℚ) (zero : List ℚ)
    (len : Nat) :
    ∀ (us : Nat → Nat → Nat → ℚ) (cells : List CellF)
      (inits xs : List (List ℚ)),
      (runStack useDrop kp zero len us cells inits xs).2.length = cells.length
  | _, [], _, _ => rfl
  | us, c :: cs, inits, xs => by
      simp [runStack,
        runStack_states_length useDrop kp zero len (fun l => us (l + 1)) cs]

/-- The projected bidirectional output stream: `tf.concat(bi_outputs, -1)`
followed by `tf.layers.dense(..., hidden_units)` — the forward output
stream and the length-reversed backward output stream combined
position-wise by the learned projection `denseBi`. -/
def biOutputs (use_dropout : Bool) (kp : ℚ) (cellFw cellBw : CellF)
    (embE : Int → List ℚ) (denseIn : List ℚ → List ℚ)
    (denseBi : List ℚ → List ℚ → List ℚ) (zero : List ℚ)
    (ufw ubw : Nat → Nat → ℚ) (encoder_inputs : List Int)
    (encoder_inputs_length : Nat) : List (List ℚ) :=
  List.zipWith denseBi
    (runLayer use_dropout kp cellFw ufw zero 0 encoder_inputs_length zero
      (encoder_inputs.map (fun tok => denseIn (embE tok)))).1
    (reverseByLength encoder_inputs_length
      (runLayer use_dropout kp cellBw ubw zero 0 encoder_inputs_length zero
        (reverseByLength encoder_inputs_length
          (encoder_inputs.map (fun tok => denseIn (embE tok))))).1)

/-- C5: with `use_bidirectional = True`, the encoder final state is the
forward cell's last state prepended to the upper-stack states: it has
exactly `encoder_depth` per-layer states and its head is the forward
run's final state; for `encoder_depth = 1` it is the forward state alone
(no upper stack); for `encoder_depth = 2` it is the forward state
followed by the final state of the single upper cell run over the
projected bidirectional outputs; for `encoder_depth > 2` it is the
forward state followed by the per-layer final states of the
`(encoder_depth - 1)`-layer upper stack run over the projected
bidirectional outputs, which number `encoder_depth - 1`. -/
theorem claim_C5 (use_dropout : Bool) (kp : ℚ) (encoder_depth : Nat)
    (cellFw cellBw : CellF) (mkCell : Nat → CellF) (embE : Int → List ℚ)
    (denseIn : List ℚ → List ℚ) (denseBi : List ℚ → List ℚ → List ℚ)
    (zero : List ℚ) (ufw ubw : Nat → Nat → ℚ) (uup : Nat → Nat → Nat → ℚ)
    (encoder_inputs : List Int) (encoder_inputs_length : Nat)
    (hd : 1 ≤ encoder_depth) :
    (buildEncoder true use_dropout kp encoder_depth cellFw cellBw mkCell
        embE denseIn denseBi zero ufw ubw uup encoder_inputs
        encoder_inputs_length).2.length = encoder_depth ∧
    (buildEncoder true use_dropout kp encoder_depth cellFw cellBw mkCell
        embE denseIn denseBi zero ufw ubw uup encoder_inputs
        encoder_inputs_length).2.head?
      = some (runLayer use_dropout kp cellFw ufw zero 0
          encoder_inputs_length zero
          (encoder_inputs.map (fun tok => denseIn (embE tok)))).2 ∧
    (encoder_depth = 1 →
      (buildEncoder true use_dropout kp encoder_depth cellFw cellBw mkCell
          embE denseIn denseBi zero ufw ubw uup encoder_inputs
          encoder_inputs_length).2
        = [(runLayer use_dropout kp cellFw ufw zero 0 encoder_inputs_length
            zero (encoder_inputs.map (fun tok => denseIn (embE tok)))).2]) ∧
    (encoder_depth = 2 →
      (buildEncoder true use_dropout kp encoder_depth cellFw cellBw mkCell
          embE denseIn denseBi zero ufw ubw uup encoder_inputs
          encoder_inputs_length).2
        = [(runLayer use_dropout kp cellFw ufw zero 0 encoder_inputs_length
            zero (encoder_inputs.map (fun tok => denseIn (embE tok)))).2,
           (runLayer use_dropout kp (mkCell 0) (uup 0) zero 0
            encoder_inputs_length zero
            (biOutputs use_dropout kp cellFw cellBw embE denseIn denseBi
              zero ufw ubw encoder_inputs encoder_inputs_length)).2]) ∧
    (2 < encoder_depth →
      (buildEncoder true use_dropout kp encoder_depth cellFw cellBw mkCell
          embE denseIn denseBi zero ufw ubw uup encoder_inputs
          encoder_inputs_length).2
        = (runLayer use_dropout kp cellFw ufw zero 0 encoder_inputs_length
            zero (encoder_inputs.map (fun tok => denseIn (embE tok)))).2
          :: (runStack use_dropout kp zero encoder_inputs_length uup
              ((List.range (encoder_depth - 1)).map mkCell)
              (List.replicate (encoder_depth - 1) zero)
              (biOutputs use_dropout kp cellFw cellBw embE denseIn denseBi
                zero ufw ubw encoder_inputs encoder_inputs_length)).2 ∧
      (runStack use_dropout kp zero encoder_inputs_length uup
          ((List.range (encoder_depth - 1)).map mkCell)
          (List.replicate (encoder_depth - 1) zero)
          (biOutputs use_dropout kp cellFw cellBw embE denseIn denseBi
            zero ufw ubw encoder_inputs encoder_inputs_length)).2.length
        = encoder_depth - 1) := by
  by_cases h2 : 2 < encoder_depth
  · have hlen := runStack_states_length use_dropout kp zero
      encoder_inputs_length uup
      ((List.range (encoder_depth - 1)).map mkCell)
      (List.replicate (encoder_depth - 1) zero)
      (biOutputs use_dropout kp cellFw cellBw embE denseIn denseBi
        zero ufw ubw encoder_inputs encoder_inputs_length)
    refine ⟨?_, ?_, ?_, ?_, ?_⟩
    · simp only [buildEncoder, if_pos rfl, if_true, if_pos h2]
      simp only [List.length_cons]
      rw [show (List.zipWith denseBi
          (runLayer use_dropout kp cellFw ufw zero 0 encoder_inputs_length
            zero (encoder_inputs.map (fun tok => denseIn (embE tok)))).1
          (reverseByLength encoder_inputs_length
            (runLayer use_dropout kp cellBw ubw zero 0 encoder_inputs_length
              zero (reverseByLength encoder_inputs_length
                (encoder_inputs.map (fun tok => denseIn (embE tok))))).1)
          = biOutputs use_dropout kp cellFw cellBw embE denseIn denseBi
              zero ufw ubw encoder_inputs encoder_inputs_length) from rfl,
        hlen]
      simp
      omega
    · simp only [buildEncoder, if_pos rfl, if_pos h2]
      rfl
    · intro h1
      omega
    · intro h1
      omega
    · intro _
      constructor
      · simp only [buildEncoder, if_pos rfl, if_pos h2]
        rfl
      · rw [hlen]
        simp
  · by_cases heq : encoder_depth = 2
    · refine ⟨?_, ?_, ?_, ?_, ?_⟩
      · simp only [buildEncoder, if_pos rfl, if_neg h2, if_pos heq]
        simp [heq]
      · simp only [buildEncoder, if_pos rfl, if_neg h2, if_pos heq]
        rfl
      · intro h1
        omega
      · intro _
        simp only [buildEncoder, if_pos rfl, if_neg h2, if_pos heq]
        rfl
      · intro h1
        omega
    · refine ⟨?_, ?_, ?_, ?_, ?_⟩
      · simp only [buildEncoder, if_pos rfl, if_neg h2, if_neg heq]
        simp
        omega
      · simp only [buildEncoder, if_pos rfl, if_neg h2, if_neg heq]
        rfl
      · intro h1
        simp only [buildEncoder, if_pos rfl, if_neg h2, if_neg heq]
        simp
      · intro h1
        omega
      · intro h1
        omega

theorem claim_C5_witness :
    (buildEncoder true false 1 2 (fun _ _ => []) (fun _ _ => [])
        (fun _ => fun _ _ => []) (fun _ => []) (fun v => v)
        (fun a _ => a) [] (fun _ _ => 0) (fun _ _ => 0) (fun _ _ _ => 0)
        [4, 5] 2).2.length = 2 ∧
    (buildEncoder true false 1 2 (fun _ _ => []) (fun _ _ => [])
        (fun _ => fun _ _ => []) (fun _ => []) (fun v => v)
        (fun a _ => a) [] (fun _ _ => 0) (fun _ _ => 0) (fun _ _ _ => 0)
        [4, 5] 2).2.head?
      = some (runLayer false 1 (fun _ _ => []) (fun _ _ => 0) [] 0 2 []
          ([4, 5].map (fun tok => (fun v => v) ((fun (_ : Int) => ([] : List ℚ)) tok)))).2 ∧
    ((2 : Nat) = 1 →
      (buildEncoder true false 1 2 (fun _ _ => []) (fun _ _ => [])
          (fun _ => fun _ _ => []) (fun _ => []) (fun v => v)
          (fun a _ => a) [] (fun _ _ => 0) (fun _ _ => 0) (fun _ _ _ => 0)
          [4, 5] 2).2
        = [(runLayer false 1 (fun _ _ => []) (fun _ _ => 0) [] 0 2 []
            ([4, 5].map (fun tok => (fun v => v) ((fun (_ : Int) => ([] : List ℚ)) tok)))).2]) ∧
    ((2 : Nat) = 2 →
      (buildEncoder true false 1 2 (fun _ _ => []) (fun _ _ => [])
          (fun _ => fun _ _ => []) (fun _ => []) (fun v => v)
          (fun a _ => a) [] (fun _ _ => 0) (fun _ _ => 0) (fun _ _ _ => 0)
          [4, 5] 2).2
        = [(runLayer false 1 (fun _ _ => []) (fun _ _ => 0) [] 0 2 []
            ([4, 5].map (fun tok => (fun v => v) ((fun (_ : Int) => ([] : List ℚ)) tok)))).2,
           (runLayer false 1 (fun _ _ => []) (fun _ _ => 0) [] 0 2 []
            (biOutputs false 1 (fun _ _ => []) (fun _ _ => []) (fun _ => [])
              (fun v => v) (fun a _ => a) [] (fun _ _ => 0) (fun _ _ => 0)
              [4, 5] 2)).2]) ∧
    ((2 : Nat) < 2 →
      (buildEncoder true false 1 2 (fun _ _ => []) (fun _ _ => [])
          (fun _ => fun _ _ => []) (fun _ => []) (fun v => v)
          (fun a _ => a) [] (fun _ _ => 0) (fun _ _ => 0) (fun _ _ _ => 0)
          [4, 5] 2).2
        = (runLayer false 1 (fun _ _ => []) (fun _ _ => 0) [] 0 2 []
            ([4, 5].map (fun tok => (fun v => v) ((fun (_ : Int) => ([] : List ℚ)) tok)))).2
          :: (runStack false 1 [] 2 (fun _ _ _ => 0)
              ((List.range (2 - 1)).map (fun _ => fun _ _ => []))
              (List.replicate (2 - 1) ([] : List ℚ))
              (biOutputs false 1 (fun _ _ => []) (fun _ _ => []) (fun _ => [])
                (fun v => v) (fun a _ => a) [] (fun _ _ => 0) (fun _ _ => 0)
                [4, 5] 2)).2 ∧
      (runStack false 1 [] 2 (fun _ _ _ => 0)
          ((List.range (2 - 1)).map (fun _ => fun _ _ => []))
          (List.replicate (2 - 1) ([] : List ℚ))
          (biOutputs false 1 (fun _ _ => []) (fun _ _ => []) (fun _ => [])
            (fun v => v) (fun a _ => a) [] (fun _ _ => 0) (fun _ _ => 0)
            [4, 5] 2)).2.length = 2 - 1) :=
  claim_C5 false 1 2 (fun _ _ => []) (fun _ _ => [])
    (fun _ => fun _ _ => []) (fun _ => []) (fun v => v) (fun a _ => a) []
    (fun _ _ => 0) (fun _ _ => 0) (fun _ _ _ => 0) [4, 5] 2 (by decide)

/-! ## Training loss graph and `eval` determinism

The train-mode graph composes the encoder, the teacher-forced decoder run,
the shared logits projection and the masked `sequence_loss`.  `eval` feeds
`keep_prob = 1` and fetches only the loss (never the train op), so the
session parameters are untouched; the only nondeterminism in the graph is
the dropout draws, which `keep_prob = 1` makes irrelevant. -/

/-- The learned parameters and configuration of the train-mode graph. -/
structure TrainGraphParams where
  use_bidirectional : Bool
  use_dropout : Bool
  encoder_depth : Nat
  decoder_depth : Nat
  cellFw : CellF
  cellBw : CellF
  mkEncCell : Nat → CellF
  mkDecCell : Nat → CellF
  embE : Int → List ℚ
  embD : Int → List ℚ
  denseIn : List ℚ → List ℚ
  denseBi : List ℚ → List ℚ → List ℚ
  denseLogits : List ℚ → List ℚ
  xent : List ℚ → Int → ℚ
  zero : List ℚ
  GO : Int
  EOS : Int

/-- The uniform-`[0,1)` dropout draw streams one example's forward pass
consumes: forward/backward encoder cells, the encoder upper stack, and the
decoder stack. -/
structure DropStreams where
  ufw : Nat → Nat → ℚ
  ubw : Nat → Nat → ℚ
  uup : Nat → Nat → Nat → ℚ
  udec : Nat → Nat → Nat → ℚ

def validStream2 (u : Nat → Nat → ℚ) : Prop :=
  ∀ t i, 0 ≤ u t i ∧ u t i < 1

def validStream3 (u : Nat → Nat → Nat → ℚ) : Prop :=
  ∀ l t i, 0 ≤ u l t i ∧ u l t i < 1

/-- All draws really are uniform-`[0,1)` samples. -/
def DropStreams.valid (d : DropStreams) : Prop :=
  validStream2 d.ufw ∧ validStream2 d.ubw ∧ validStream3 d.uup ∧
    validStream3 d.udec

def zeroStream2 : Nat → Nat → ℚ := fun _ _ => 0

def zeroStream3 : Nat → Nat → Nat → ℚ := fun _ _ _ => 0

def zeroDropStreams : DropStreams :=
  ⟨zeroStream2, zeroStream2, zeroStream3, zeroStream3⟩

/-- One training example: encoder/decoder token rows and true lengths. -/
structure BatchExample where
  encoder_tokens : List Int
  encoder_length : Nat
  decoder_tokens : List Int
  decoder_length : Nat

/-- One example's contribution to `sequence_loss`: run the encoder, embed
the teacher-forced row `GO :: decoder_tokens`, run the decoder stack from
the encoder final state over `decoder_inputs_train_length =
decoder_length + 1` steps, project to logits, and weight the per-position
cross-entropies against the targets `decoder_tokens ++ [EOS]` by the mask
row.  Returns `(weighted cross-entropy sum, weight sum)`. -/
def exampleLossParts (P : TrainGraphParams) (kp : ℚ) (d : DropStreams)
    (maxlen : Nat) (ex : BatchExample) : ℚ × ℚ :=
  let enc := buildEncoder P.use_bidirectional P.use_dropout kp
    P.encoder_depth P.cellFw P.cellBw P.mkEncCell P.embE P.denseIn
    P.denseBi P.zero d.ufw d.ubw d.uup ex.encoder_tokens ex.encoder_length
  let embedded := (P.GO :: ex.decoder_tokens).map P.embD
  let dec := runStack P.use_dropout kp P.zero (ex.decoder_length + 1)
    d.udec ((List.range P.decoder_depth).map P.mkDecCell) enc.2 embedded
  let logits := dec.1.map P.denseLogits
  let w := maskRow (ex.decoder_length + 1) maxlen
  (wXentSum P.xent w logits (ex.decoder_tokens ++ [P.EOS]), w.sum)

/-- Sum the per-example numerators and weight totals over the batch;
`ds i` is example `i`'s dropout draws. -/
def batchLossParts (P : TrainGraphParams) (kp : ℚ) (maxlen : Nat) :
    (Nat → DropStreams) → List BatchExample → ℚ × ℚ
  | _, [] => (0, 0)
  | ds, ex :: rest =>
    let p := exampleLossParts P kp (ds 0) maxlen ex
    let r := batchLossParts P kp maxlen (fun i => ds (i + 1)) rest
    (p.1 + r.1, p.2 + r.2)

/-- `reduce_max(decoder_targets_train_length)` over the batch. -/
def batchMaxTrainLen (batch : List BatchExample) : Nat :=
  reduceMaxNat (batch.map (fun ex => ex.decoder_length + 1))

/-- The scalar training loss: total weighted cross-entropy over total
weight (`sequence_loss` with its default batch/time averaging). -/
def modelLoss (P : TrainGraphParams) (kp : ℚ) (ds : Nat → DropStreams)
    (batch : List BatchExample) : ℚ :=
  let parts := batchLossParts P kp (batchMaxTrainLen batch) ds batch
  parts.1 / parts.2

/-- `eval(...)`: feeds `keep_prob = 1` and fetches only `self.loss` — the
train op is not in the output feed, so the session parameters come back
unchanged. -/
def evalOp (P : TrainGraphParams) (ds : Nat → DropStreams)
    (batch : List BatchExample) : ℚ × TrainGraphParams :=
  (modelLoss P 1 ds batch, P)

theorem dropoutVec_one :
    ∀ (u : Nat → ℚ) (x : List ℚ), (∀ i, u i < 1) → dropoutVec 1 u x = x
  | _, [], _ => rfl
  | u, v :: vs, h => by
      have ih := dropoutVec_one (fun i => u (i + 1)) vs (fun i => h (i + 1))
      simp [dropoutVec, h 0, ih]

theorem applyCell_one (useDrop : Bool) (u : Nat → ℚ) (cell : CellF)
    (x s : List ℚ) (h : ∀ i, u i < 1) :
    applyCell useDrop 1 u cell x s = (cell x s, cell x s) := by
  cases useDrop
  · rfl
  · simp [applyCell, dropoutVec_one u (cell x s) h]

theorem runLayer_one (useDrop : Bool) (cell : CellF) (zero : List ℚ)
    (len : Nat) :
    ∀ (xs : List (List ℚ)) (u : Nat → Nat → ℚ) (t : Nat) (s : List ℚ),
      (∀ t i, u t i < 1) →
      runLayer useDrop 1 cell u zero t len s xs
        = runLayer false 1 cell zeroStream2 zero t len s xs
  | [], _, _, _, _ => rfl
  | x :: xs, u, t, s, h => by
      have ih := runLayer_one useDrop cell zero len xs u (t + 1) (cell x s) h
      have ih2 := runLayer_one useDrop cell zero len xs u (t + 1) s h
      have hac := applyCell_one useDrop (u t) cell x s (h t)
      by_cases ht : t < len
      · simp only [runLayer, if_pos ht, hac, ih]
        simp [applyCell]
      · simp only [runLayer, if_neg ht, ih2]

theorem runStack_one (useDrop : Bool) (zero : List ℚ) (len : Nat) :
    ∀ (cells : List CellF) (us : Nat → Nat → Nat → ℚ)
      (inits xs : List (List ℚ)),
      (∀ l t i, us l t i < 1) →
      runStack useDrop 1 zero len us cells inits xs
        = runStack false 1 zero len zeroStream3 cells inits xs
  | [], _, _, _, _ => rfl
  | c :: cs, us, inits, xs, h => by
      have ihl := runLayer_one useDrop c zero len xs (us 0) 0
        (inits.headD zero) (fun t i => h 0 t i)
      have ih := runStack_one useDrop zero len cs (fun l => us (l + 1))
        inits.tail
        (runLayer false 1 c zeroStream2 zero 0 len (inits.headD zero) xs).1
        (fun l t i => h (l + 1) t i)
      simp only [runStack]
      rw [ihl, ih]
      rfl

theorem buildEncoder_one (use_bidirectional use_dropout : Bool)
    (encoder_depth : Nat) (cellFw cellBw : CellF) (mkCell : Nat → CellF)
    (embE : Int → List ℚ) (denseIn : List ℚ → List ℚ)
    (denseBi : List ℚ → List ℚ → List ℚ) (zero : List ℚ)
    (ufw ubw : Nat → Nat → ℚ) (uup : Nat → Nat → Nat → ℚ)
    (inputs : List Int) (len : Nat)
    (hfw : ∀ t i, ufw t i < 1) (hbw : ∀ t i, ubw t i < 1)
    (hup : ∀ l t i, uup l t i < 1) :
    buildEncoder use_bidirectional use_dropout 1 encoder_depth cellFw
        cellBw mkCell embE denseIn denseBi zero ufw ubw uup inputs len
      = buildEncoder use_bidirectional false 1 encoder_depth cellFw cellBw
        mkCell embE denseIn denseBi zero zeroStream2 zeroStream2
        zeroStream3 inputs len := by
  cases use_bidirectional
  · simp only [buildEncoder, Bool.false_eq_true, if_neg (by simp : ¬False)]
    exact runStack_one use_dropout zero len
      ((List.range encoder_depth).map mkCell)
      uup (List.replicate encoder_depth zero)
      (inputs.map (fun tok => denseIn (embE tok))) hup
  · simp only [buildEncoder, if_pos rfl, if_true]
    rw [runLayer_one use_dropout cellFw zero len
        (inputs.map (fun tok => denseIn (embE tok))) ufw 0 zero hfw,
      runLayer_one use_dropout cellBw zero len
        (reverseByLength len (inputs.map (fun tok => denseIn (embE tok))))
        ubw 0 zero hbw]
    by_cases h2 : 2 < encoder_depth
    · simp only [if_pos h2]
      rw [runStack_one use_dropout zero len
        ((List.range (encoder_depth - 1)).map mkCell) uup
        (List.replicate (encoder_depth - 1) zero) _ hup]
    · by_cases heq : encoder_depth = 2
      · simp only [if_neg h2, if_pos heq]
        rw [runLayer_one use_dropout (mkCell 0) zero len _ (uup 0) 0 zero
          (fun t i => hup 0 t i)]
        rfl
      · simp only [if_neg h2, if_neg heq]

theorem zeroDropStreams_valid : zeroDropStreams.valid :=
  ⟨fun _ _ => ⟨le_rfl, by norm_num [zeroDropStreams, zeroStream2]⟩,
   fun _ _ => ⟨le_rfl, by norm_num [zeroDropStreams, zeroStream2]⟩,
   fun _ _ _ => ⟨le_rfl, by norm_num [zeroDropStreams, zeroStream3]⟩,
   fun _ _ _ => ⟨le_rfl, by norm_num [zeroDropStreams, zeroStream3]⟩⟩

/-- A keep-probability of `1` makes every dropout layer the identity, so
one example's loss contribution reduces to the dropout-free forward pass,
whatever the draws were. -/
theorem exampleLossParts_norm (P : TrainGraphParams) (d : DropStreams)
    (maxlen : Nat) (ex : BatchExample) (hd : d.valid) :
    exampleLossParts P 1 d maxlen ex
      = (wXentSum P.xent (maskRow (ex.decoder_length + 1) maxlen)
          (((runStack false 1 P.zero (ex.decoder_length + 1) zeroStream3
              ((List.range P.decoder_depth).map P.mkDecCell)
              (buildEncoder P.use_bidirectional false 1 P.encoder_depth
                P.cellFw P.cellBw P.mkEncCell P.embE P.denseIn P.denseBi
                P.zero zeroStream2 zeroStream2 zeroStream3
                ex.encoder_tokens ex.encoder_length).2
              ((P.GO :: ex.decoder_tokens).map P.embD)).1).map P.denseLogits)
          (ex.decoder_tokens ++ [P.EOS]),
         (maskRow (ex.decoder_length + 1) maxlen).sum) := by
  obtain ⟨h1, h2, h3, h4⟩ := hd
  simp only [exampleLossParts]
  rw [buildEncoder_one P.use_bidirectional P.use_dropout P.encoder_depth
      P.cellFw P.cellBw P.mkEncCell P.embE P.denseIn P.denseBi P.zero
      d.ufw d.ubw d.uup ex.encoder_tokens ex.encoder_length
      (fun t i => (h1 t i).2) (fun t i => (h2 t i).2)
      (fun l t i => (h3 l t i).2),
    runStack_one P.use_dropout P.zero (ex.decoder_length + 1)
      ((List.range P.decoder_depth).map P.mkDecCell) d.udec _ _
      (fun l t i => (h4 l t i).2)]

theorem exampleLossParts_one (P : TrainGraphParams) (d : DropStreams)
    (maxlen : Nat) (ex : BatchExample) (hd : d.valid) :
    exampleLossParts P 1 d maxlen ex
      = exampleLossParts P 1 zeroDropStreams maxlen ex :=
  (exampleLossParts_norm P d maxlen ex hd).trans
    (exampleLossParts_norm P zeroDropStreams maxlen ex
      zeroDropStreams_valid).symm

theorem batchLossParts_one (P : TrainGraphParams) (maxlen : Nat) :
    ∀ (batch : List BatchExample) (ds : Nat → DropStreams),
      (∀ i, (ds i).valid) →
      batchLossParts P 1 maxlen ds batch
        = batchLossParts P 1 maxlen (fun _ => zeroDropStreams) batch
  | [], _, _ => rfl
  | ex :: rest, ds, h => by
      have ih := batchLossParts_one P maxlen rest (fun i => ds (i + 1))
        (fun i => h (i + 1))
      simp only [batchLossParts]
      rw [exampleLossParts_one P (ds 0) maxlen ex (h 0), ih]

/-- C7: for every batch, two `eval` calls with unchanged parameters return
the same loss — `eval` fetches only the loss (never the training op), so
it returns the parameters unmodified, and it feeds keep-probability `1`,
which makes every dropout layer the identity, so the loss does not depend
on the dropout draws (`ds`, `ds'` are any two valid uniform-`[0,1)` draw
families). -/
theorem claim_C7 (P : TrainGraphParams) (batch : List BatchExample)
    (ds ds' : Nat → DropStreams)
    (h : ∀ i, (ds i).valid) (h' : ∀ i, (ds' i).valid) :
    (evalOp P ds batch).1 = (evalOp P ds' batch).1 ∧
    (evalOp P ds batch).2 = P ∧ (evalOp P ds' batch).2 = P := by
  refine ⟨?_, rfl, rfl⟩
  simp only [evalOp, modelLoss]
  rw [batchLossParts_one P _ batch ds h, batchLossParts_one P _ batch ds' h']

/-- A small concrete parameter set for evaluating the training graph. -/
def sampleParams : TrainGraphParams where
  use_bidirectional := false
  use_dropout := true
  encoder_depth := 1
  decoder_depth := 1
  cellFw := fun _ s => s
  cellBw := fun _ s => s
  mkEncCell := fun _ => fun _ s => s
  mkDecCell := fun _ => fun _ s => s
  embE := fun _ => []
  embD := fun _ => []
  denseIn := fun v => v
  denseBi := fun a _ => a
  denseLogits := fun v => v
  xent := fun _ _ => 1
  zero := []
  GO := 1
  EOS := 2

def sampleBatch : List BatchExample :=
  [⟨[4, 5], 2, [7], 1⟩]

/-- Dropout draws that are all `1/2`. -/
def halfDropStreams : DropStreams :=
  ⟨fun _ _ => 1 / 2, fun _ _ => 1 / 2, fun _ _ _ => 1 / 2,
   fun _ _ _ => 1 / 2⟩

theorem halfDropStreams_valid : halfDropStreams.valid :=
  ⟨fun _ _ => ⟨by norm_num [halfDropStreams], by norm_num [halfDropStreams]⟩,
   fun _ _ => ⟨by norm_num [halfDropStreams], by norm_num [halfDropStreams]⟩,
   fun _ _ _ => ⟨by norm_num [halfDropStreams], by norm_num [halfDropStreams]⟩,
   fun _ _ _ => ⟨by norm_num [halfDropStreams], by norm_num [halfDropStreams]⟩⟩

theorem claim_C7_witness :
    (evalOp sampleParams (fun _ => zeroDropStreams) sampleBatch).1
      = (evalOp sampleParams (fun _ => halfDropStreams) sampleBatch).1 ∧
    (evalOp sampleParams (fun _ => zeroDropStreams) sampleBatch).2
      = sampleParams ∧
    (evalOp sampleParams (fun _ => halfDropStreams) sampleBatch).2
      = sampleParams :=
  claim_C7 sampleParams sampleBatch (fun _ => zeroDropStreams)
    (fun _ => halfDropStreams)
    (fun _ => zeroDropStreams_valid)
    (fun _ => halfDropStreams_valid)

end Seq2Seq
